import Mathlib

/-!
Verification of the Concerto runtime type system and metamodel converter.

This development shallowly embeds two source files of the repository:

* `packages/concerto-core/lib/model/typed.js` — the `Typed` runtime instance
  class (property bag with `$`-prefixed internal metadata, field-default
  assignment, instance-of testing along the super-type chain, array append,
  and the blocked generic `toJSON`).
* `packages/concerto-core/lib/introspect/metamodel.js` — the AST → canonical
  metamodel converter (`fieldToMetaModel`, `relationshipToMetaModel`,
  `enumPropertyToMetaModel`, `declToMetaModel`).

JavaScript values stored on an instance are modelled by the inductive
`Concerto.Value`; JS numbers are modelled as exact rationals (plus NaN and
signed infinity), which is faithful for the small literals exercised here.
JS objects are modelled as association lists from key to value, with absence
of a key modelled by `Option`.  Fallible JS code (thrown exceptions) is
modelled with `Option`/`Except`.
-/

namespace Concerto

/-- The ModelManager is an external collaborator for the code under
verification (`typed.js` only stores and returns it); it is modelled as an
opaque token. -/
structure ModelManager where
deriving DecidableEq

/-- A moment-mini date-time value.  Modelled from the spec: moment-mini is an
external dependency; `parseZone` keeps the time-zone offset declared in the
parsed text instead of converting to local time.  We model the value as the
raw text plus the extracted UTC offset in minutes. -/
structure Moment where
  raw : String
  utcOffset : Int
deriving DecidableEq

/-- Extract `±hh:mm`, `±hhmm` or `±hh` following a `+`/`-` sign, as minutes. -/
def offsetMinutes : List Char → Int
  | h1 :: h2 :: ':' :: m1 :: m2 :: _ =>
    if h1.isDigit ∧ h2.isDigit ∧ m1.isDigit ∧ m2.isDigit then
      60 * (10 * (h1.toNat - 48) + (h2.toNat - 48)) +
        (10 * (m1.toNat - 48) + (m2.toNat - 48))
    else 0
  | h1 :: h2 :: m1 :: m2 :: _ =>
    if h1.isDigit ∧ h2.isDigit ∧ m1.isDigit ∧ m2.isDigit then
      60 * (10 * (h1.toNat - 48) + (h2.toNat - 48)) +
        (10 * (m1.toNat - 48) + (m2.toNat - 48))
    else if h1.isDigit ∧ h2.isDigit then
      60 * (10 * (h1.toNat - 48) + (h2.toNat - 48))
    else 0
  | h1 :: h2 :: _ =>
    if h1.isDigit ∧ h2.isDigit then 60 * (10 * (h1.toNat - 48) + (h2.toNat - 48)) else 0
  | _ => 0

/-- Find the trailing UTC-offset designator in the time part of an ISO-8601
string: `Z`/`z` means offset 0, `+`/`-` introduces an `hh:mm`-style offset. -/
def findOffsetDesignator : List Char → Int
  | [] => 0
  | 'Z' :: _ => 0
  | 'z' :: _ => 0
  | '+' :: r => offsetMinutes r
  | '-' :: r => - offsetMinutes r
  | _ :: r => findOffsetDesignator r

/-- Modelled from the spec: `Moment.parseZone` (moment-mini, an external
dependency not under src/) parses a date-time string preserving the declared
time-zone offset.  The offset designator is searched after the `T` time
separator so that date hyphens are not mistaken for an offset sign. -/
def Moment.parseZone (s : String) : Moment :=
  { raw := s, utcOffset := findOffsetDesignator (s.data.dropWhile (fun c => c ≠ 'T')) }

/-- A declared property of a class: the `instanceof Field` test in
`_assignFieldDefaults` distinguishes fields from the other property kinds. -/
structure FieldDecl where
  name : String
  type : String
  defaultValue : Option String
deriving DecidableEq

/-- Modelled from the spec: class declarations (not under src/) own an ordered
sequence of properties, each a Field, a Relationship or an Enum member. -/
inductive Property where
  | field (f : FieldDecl)
  | relationship (name : String) (type : String)
  | enumValue (name : String)
deriving DecidableEq

def Property.getName : Property → String
  | .field f => f.name
  | .relationship n _ => n
  | .enumValue n => n

structure ClassDeclBody where
  fqn : String
  props : List Property
deriving DecidableEq

/-- Modelled from the spec: a resolved class declaration (classdeclaration.js
is not under src/) has a fully-qualified name, its own ordered properties and
an optional single super-type declaration; after validation the super-type
chain is finite and acyclic, which the inductive structure captures. -/
inductive ClassDeclaration where
  | root (b : ClassDeclBody)
  | child (b : ClassDeclBody) (superDecl : ClassDeclaration)
deriving DecidableEq

def ClassDeclaration.getFullyQualifiedName : ClassDeclaration → String
  | .root b => b.fqn
  | .child b _ => b.fqn

def ClassDeclaration.getSuperTypeDeclaration : ClassDeclaration → Option ClassDeclaration
  | .root _ => none
  | .child _ s => some s

def ClassDeclaration.ownProps : ClassDeclaration → List Property
  | .root b => b.props
  | .child b _ => b.props

def propsContainName (l : List Property) (n : String) : Bool :=
  l.any (fun p => p.getName == n)

/-- Modelled from the spec: `all_properties()` returns, in a stable order, own
properties first in declaration order, then inherited properties walking up
the super-type chain, skipping any name already seen. -/
def gatherChainProps (acc : List Property) : ClassDeclaration → List Property
  | .root b => acc ++ b.props.filter (fun p => !(propsContainName acc p.getName))
  | .child b s =>
    gatherChainProps (acc ++ b.props.filter (fun p => !(propsContainName acc p.getName))) s

/-- Modelled from the spec: `classDeclaration.getProperties()` — the flattened
own-plus-inherited property list (classdeclaration.js is not under src/). -/
def ClassDeclaration.getProperties (d : ClassDeclaration) : List Property :=
  gatherChainProps [] d

mutual
/-- A JavaScript value as stored on a `Typed` instance.  Numbers are modelled
as exact rationals, together with NaN and signed infinity. -/
inductive Value where
  | vStr (s : String)
  | num (q : Rat)
  | nan
  | vInfinity (neg : Bool)
  | vBool (b : Bool)
  | vDateTime (m : Moment)
  | arr (elems : ValueList)
  | vClassDecl (d : ClassDeclaration)
  | vMM (m : ModelManager)
deriving DecidableEq

inductive ValueList where
  | nil
  | cons (v : Value) (rest : ValueList)
deriving DecidableEq
end

def ValueList.append : ValueList → ValueList → ValueList
  | .nil, l => l
  | .cons v r, l => .cons v (ValueList.append r l)

/-- JavaScript truthiness of a stored value (`undefined`, i.e. an absent key,
is handled at each use site). -/
def Value.truthy : Value → Bool
  | .vStr s => !(s == "")
  | .num q => !(q == 0)
  | .nan => false
  | .vInfinity _ => true
  | .vBool b => b
  | .vDateTime _ => true
  | .arr _ => true
  | .vClassDecl _ => true
  | .vMM _ => true

/-- JavaScript WhiteSpace characters recognised by `parseInt`/`parseFloat`
(the common ones; modelled external builtin). -/
def jsIsWhitespace (c : Char) : Bool :=
  c == ' ' || c == '\t' || c == '\n' || c == '\r' || c == Char.ofNat 11 || c == Char.ofNat 12

def decDigitsVal (l : List Char) : Nat :=
  l.foldl (fun a c => 10 * a + (c.toNat - 48)) 0

def hexDigitVal (c : Char) : Nat :=
  if c.isDigit then c.toNat - 48
  else if 'a' ≤ c ∧ c ≤ 'f' then c.toNat - 87
  else c.toNat - 55

def isHexDigit (c : Char) : Bool :=
  c.isDigit || ('a' ≤ c && c ≤ 'f') || ('A' ≤ c && c ≤ 'F')

def hexDigitsVal (l : List Char) : Nat :=
  l.foldl (fun a c => 16 * a + hexDigitVal c) 0

/-- Modelled external builtin: JavaScript `parseInt(s)` with no radix
argument — skip leading whitespace, read an optional sign, use base 16 after
a `0x`/`0X` prefix and base 10 otherwise, consume the longest digit prefix,
and produce NaN when no digit is consumed. -/
def jsParseInt (s : String) : Value :=
  let l := s.data.dropWhile jsIsWhitespace
  let sign : Int := match l with
    | '-' :: _ => -1
    | _ => 1
  let l1 := match l with
    | '-' :: r => r
    | '+' :: r => r
    | _ => l
  match l1 with
  | '0' :: 'x' :: r =>
    let ds := r.takeWhile isHexDigit
    if ds.isEmpty then Value.nan else Value.num ((sign * (hexDigitsVal ds : Int) : Int) : Rat)
  | '0' :: 'X' :: r =>
    let ds := r.takeWhile isHexDigit
    if ds.isEmpty then Value.nan else Value.num ((sign * (hexDigitsVal ds : Int) : Int) : Rat)
  | _ =>
    let ds := l1.takeWhile Char.isDigit
    if ds.isEmpty then Value.nan else Value.num ((sign * (decDigitsVal ds : Int) : Int) : Rat)

/-- Exponent part of a float literal: optional sign then digits; an `e` not
followed by digits is ignored (exponent 0), as in JavaScript `parseFloat`. -/
def expPartVal (l : List Char) : Int :=
  let sign : Int := match l with
    | '-' :: _ => -1
    | _ => 1
  let l1 := match l with
    | '-' :: r => r
    | '+' :: r => r
    | _ => l
  let ds := l1.takeWhile Char.isDigit
  if ds.isEmpty then 0 else sign * (decDigitsVal ds : Int)

/-- Modelled external builtin: JavaScript `parseFloat(s)` — skip leading
whitespace, read an optional sign, accept `Infinity`, otherwise read
`digits [. digits] [e|E exponent]` as the longest valid prefix; NaN when no
digit appears before the exponent. -/
def jsParseFloat (s : String) : Value :=
  let l := s.data.dropWhile jsIsWhitespace
  let neg : Bool := match l with
    | '-' :: _ => true
    | _ => false
  let l1 := match l with
    | '-' :: r => r
    | '+' :: r => r
    | _ => l
  if ("Infinity".data).isPrefixOf l1 then Value.vInfinity neg
  else
    let ip := l1.takeWhile Char.isDigit
    let r1 := l1.drop ip.length
    let fp := match r1 with
      | '.' :: r => r.takeWhile Char.isDigit
      | _ => []
    let r2 := match r1 with
      | '.' :: r => r.dropWhile Char.isDigit
      | _ => r1
    if ip.isEmpty ∧ fp.isEmpty then Value.nan
    else
      let e : Int := match r2 with
        | 'e' :: r => expPartVal r
        | 'E' :: r => expPartVal r
        | _ => 0
      let m : Int := (decDigitsVal ip * 10 ^ fp.length + decDigitsVal fp : Nat)
      let signedM : Int := if neg then -m else m
      Value.num ((signedM : Rat) * (10 : Rat) ^ (e - (fp.length : Int)))

/-- A `Typed` runtime instance: in JavaScript this is a single object whose
own properties hold both the user data and the `$`-prefixed internal
metadata, so it is modelled as one association list from key to value
(`typed.js`, constructor lines 42–47). -/
structure Typed where
  props : List (String × Value)
deriving DecidableEq

def lookupPropList : List (String × Value) → String → Option Value
  | [], _ => none
  | (k, v) :: rest, n => if k == n then some v else lookupPropList rest n

def setPropList : List (String × Value) → String → Value → List (String × Value)
  | [], n, v => [(n, v)]
  | (k, w) :: rest, n, v =>
    if k == n then (n, v) :: rest else (k, w) :: setPropList rest n v

def Typed.lookupProp (t : Typed) (n : String) : Option Value :=
  lookupPropList t.props n

/-- The `Typed` constructor (`typed.js` lines 42–47): assigns the four
`$`-prefixed metadata slots on the same property bag as user data. -/
def Typed.make (mm : ModelManager) (cd : ClassDeclaration) (ns ty : String) : Typed :=
  { props := setPropList (setPropList (setPropList (setPropList []
      "$modelManager" (Value.vMM mm))
      "$classDeclaration" (Value.vClassDecl cd))
      "$namespace" (Value.vStr ns))
      "$type" (Value.vStr ty) }

/-- `_getModelManager` (`typed.js` line 65–67): reads `this.$modelManager`. -/
def Typed._getModelManager (t : Typed) : Option Value :=
  t.lookupProp "$modelManager"

/-- `_getType` (`typed.js` lines 73–75): reads `this.$type`. -/
def Typed._getType (t : Typed) : Option Value :=
  t.lookupProp "$type"

/-- `_getNamespace` (`typed.js` lines 89–91): reads `this.$namespace`. -/
def Typed._getNamespace (t : Typed) : Option Value :=
  t.lookupProp "$namespace"

/-- `_getClassDeclaration` (`typed.js` lines 99–101): reads
`this.$classDeclaration`. -/
def Typed._getClassDeclaration (t : Typed) : Option Value :=
  t.lookupProp "$classDeclaration"

/-- `_setPropertyValue` (`typed.js` lines 108–110): `this[propName] = value`. -/
def Typed._setPropertyValue (t : Typed) (propName : String) (v : Value) : Typed :=
  { props := setPropList t.props propName v }

/-- `_addArrayValue` (`typed.js` lines 117–124): when `this[propName]` is
truthy, call `.push(value)` on it (a TypeError — modelled as `none` — when it
is not an array); otherwise assign the one-element array `[value]`. -/
def Typed._addArrayValue (t : Typed) (propName : String) (v : Value) : Option Typed :=
  match t.lookupProp propName with
  | some cur =>
    if cur.truthy then
      match cur with
      | .arr l => some (t._setPropertyValue propName (.arr (l.append (.cons v .nil))))
      | _ => none
    else some (t._setPropertyValue propName (.arr (.cons v .nil)))
  | none => some (t._setPropertyValue propName (.arr (.cons v .nil)))

/-- The `if`/`else if` chain of `_assignFieldDefaults` (`typed.js` lines
140–156): every branch assigns to `field.getName()`, so the dispatch on
`field.getType()` is factored into the coerced value; the final branch
(reached for enum types) copies the default verbatim. -/
def coerceDefault (ty dv : String) : Value :=
  if ty == "String" then Value.vStr dv
  else if ty == "Integer" then jsParseInt dv
  else if ty == "Long" then jsParseInt dv
  else if ty == "Double" then jsParseFloat dv
  else if ty == "Boolean" then Value.vBool (dv == "true")
  else if ty == "DateTime" then Value.vDateTime (Moment.parseZone dv)
  else Value.vStr dv

/-- One iteration of the `_assignFieldDefaults` loop (`typed.js` lines
134–158): only `instanceof Field` properties are considered, the default is
assigned only when truthy (`if (defaultValue)` — the empty string is falsy),
and the textual default is coerced by the field's declared type. -/
def assignDefaultStep (t : Typed) (p : Property) : Typed :=
  match p with
  | .field f =>
    match f.defaultValue with
    | some dv =>
      if dv == "" then t
      else t._setPropertyValue f.name (coerceDefault f.type dv)
    | none => t
  | _ => t

/-- `_assignFieldDefaults` (`typed.js` lines 130–160): iterate over
`this._getClassDeclaration().getProperties()` in order; `none` models the
TypeError raised when the `$classDeclaration` slot does not hold a class
declaration. -/
def Typed._assignFieldDefaults (t : Typed) : Option Typed :=
  match t._getClassDeclaration with
  | some (.vClassDecl cd) => some (cd.getProperties.foldl assignDefaultStep t)
  | _ => none

/-- The `while (superTypeDeclaration)` loop of `_instanceOf` (`typed.js`
lines 176–182): walk the super-type chain above `d` looking for `fqt`. -/
def instanceOfChain (d : ClassDeclaration) (fqt : String) : Bool :=
  match d with
  | .root _ => false
  | .child _ s => s.getFullyQualifiedName == fqt || instanceOfChain s fqt

/-- `_instanceOf` applied to a class declaration (`typed.js` lines 169–184):
first compare the declaration's own fully-qualified name, then walk the
super-type chain. -/
def declInstanceOf (d : ClassDeclaration) (fqt : String) : Bool :=
  d.getFullyQualifiedName == fqt || instanceOfChain d fqt

/-- `_instanceOf` (`typed.js` lines 169–184): `none` models the TypeError
raised when the `$classDeclaration` slot does not hold a class declaration. -/
def Typed._instanceOf (t : Typed) (fqt : String) : Option Bool :=
  match t._getClassDeclaration with
  | some (.vClassDecl d) => some (declInstanceOf d fqt)
  | _ => none

/-- `_toJSON` (`typed.js` lines 191–193): unconditionally throws, directing
callers to the Serializer. -/
def Typed._toJSON (_t : Typed) : Except String Value :=
  .error "Use Serializer.toJSON to convert resource instances to JSON objects."

/-! ## Metamodel converter (`metamodel.js`) -/

/-- A source location attached to AST nodes by the external parser. -/
structure Loc where
  line : Nat
  column : Nat
deriving DecidableEq

/-- An AST identifier node (`{ name: ... }`). -/
structure Ident where
  name : String
deriving DecidableEq

/-- The `classExtension` AST node; its `class` key holds an identifier. -/
structure ClassExt where
  klass : Ident
deriving DecidableEq

/-- A property AST node as produced by the external parser (`FieldDeclaration`,
`RelationshipDeclaration`, `EnumPropertyDeclaration`, or anything else in the
`type` tag), carrying a name, a property type, `array`/`optional` flags (their
JS truthiness is modelled as `Bool`) and a source location. -/
structure PropAst where
  type : String
  id : Ident
  propertyType : Ident
  array : Bool
  optional : Bool
  location : Loc
deriving DecidableEq

structure DeclBody where
  declarations : List PropAst
deriving DecidableEq

/-- A declaration AST node as produced by the external parser. -/
structure DeclAst where
  type : String
  id : Ident
  abstract : Bool
  classExtension : Option ClassExt
  idField : Option Ident
  body : DeclBody
  location : Loc
deriving DecidableEq

/-- A `concerto.metamodel.TypeIdentifier` object; `classTag` is the `$class`
discriminator key. -/
structure TypeIdentifier where
  classTag : String
  name : String
deriving DecidableEq

/-- A metamodel property object as built by `fieldToMetaModel`,
`relationshipToMetaModel` and `enumPropertyToMetaModel`; `classTag` is the
`$class` discriminator key and `type` is absent (`none`) unless set. -/
structure MMProp where
  classTag : String
  name : String
  isArray : Bool
  isOptional : Bool
  type : Option TypeIdentifier
deriving DecidableEq

/-- A metamodel declaration object as built by `declToMetaModel`. -/
structure MMDecl where
  classTag : String
  name : String
  isAbstract : Bool
  superType : Option TypeIdentifier
  identifiedByField : Option String
  fields : List MMProp
deriving DecidableEq

/-- An error thrown during conversion.  `metamodel.js` is strict-mode code and
`declToMetaModel` is always invoked as a plain function, so inside it `this`
is `undefined`: the two property-level `throw` statements evaluate
`this.modelFile` and therefore actually raise a TypeError (modelled by
`typeErrorUndefined` with the accessed key) before an `IllegalModelException`
can be constructed.  The declaration-level throw only passes `this` itself,
so it does construct an `IllegalModelException`, modelled by `illegalModel`
with its message and the (optional) source location passed to it. -/
inductive ConvError where
  | illegalModel (message : String) (location : Option Loc)
  | typeErrorUndefined (accessed : String)
deriving DecidableEq

/-- Modelled from the spec: the Globalize message catalog (not under src/)
renders `modelfile-constructor-unrecmodelelem` as a message carrying the
offending kind name. -/
def unrecElemMessage (t : String) : String :=
  "Unrecognised model element type " ++ t

/-- `fieldToMetaModel` (`metamodel.js` lines 25–73): name and flags are always
copied; the six primitive type names get a dedicated `$class` discriminator;
any other type name yields an `ObjectFieldDeclaration` carrying a
`TypeIdentifier`. -/
def fieldToMetaModel (ast : PropAst) : MMProp :=
  if ast.propertyType.name == "Integer" then
    { classTag := "concerto.metamodel.IntegerFieldDeclaration",
      name := ast.id.name, isArray := ast.array, isOptional := ast.optional, type := none }
  else if ast.propertyType.name == "Long" then
    { classTag := "concerto.metamodel.LongFieldDeclaration",
      name := ast.id.name, isArray := ast.array, isOptional := ast.optional, type := none }
  else if ast.propertyType.name == "Double" then
    { classTag := "concerto.metamodel.DoubleFieldDeclaration",
      name := ast.id.name, isArray := ast.array, isOptional := ast.optional, type := none }
  else if ast.propertyType.name == "Boolean" then
    { classTag := "concerto.metamodel.BooleanFieldDeclaration",
      name := ast.id.name, isArray := ast.array, isOptional := ast.optional, type := none }
  else if ast.propertyType.name == "DateTime" then
    { classTag := "concerto.metamodel.DateTimeFieldDeclaration",
      name := ast.id.name, isArray := ast.array, isOptional := ast.optional, type := none }
  else if ast.propertyType.name == "String" then
    { classTag := "concerto.metamodel.StringFieldDeclaration",
      name := ast.id.name, isArray := ast.array, isOptional := ast.optional, type := none }
  else
    { classTag := "concerto.metamodel.ObjectFieldDeclaration",
      name := ast.id.name, isArray := ast.array, isOptional := ast.optional,
      type := some { classTag := "concerto.metamodel.TypeIdentifier",
                     name := ast.propertyType.name } }

/-- `relationshipToMetaModel` (`metamodel.js` lines 80–105). -/
def relationshipToMetaModel (ast : PropAst) : MMProp :=
  { classTag := "concerto.metamodel.RelationshipDeclaration",
    name := ast.id.name, isArray := ast.array, isOptional := ast.optional,
    type := some { classTag := "concerto.metamodel.TypeIdentifier",
                   name := ast.propertyType.name } }

/-- `enumPropertyToMetaModel` (`metamodel.js` lines 112–125): only the
discriminator and the name are taken from the node; `isArray` and
`isOptional` are hard-coded `false` and no `type` key is ever set. -/
def enumPropertyToMetaModel (ast : PropAst) : MMProp :=
  { classTag := "concerto.metamodel.EnumFieldDeclaration",
    name := ast.id.name, isArray := false, isOptional := false, type := none }

/-- `name.startsWith('$')` for the one-character reserved sigil: true when
the first character of the name is `$`. -/
def startsWithDollar (s : String) : Bool :=
  match s.data with
  | '$' :: _ => true
  | _ => false

/-- The property loop of `declToMetaModel` (`metamodel.js` lines 180–199): for
each property node, first the reserved-sigil check on the name (the JS guard
`thing.id && thing.id.name && thing.id.name.startsWith('$')` is equivalent to
`startsWithDollar` since the empty name does not start with `$`), then dispatch
on the node's `type` tag; the reserved-sigil throw and the
unrecognised-kind throw both read `this.modelFile` with `this = undefined`
and so raise a TypeError. -/
def declPropsToMetaModel : List PropAst → Except ConvError (List MMProp)
  | [] => .ok []
  | thing :: rest =>
    if startsWithDollar thing.id.name then
      .error (.typeErrorUndefined "modelFile")
    else if thing.type == "FieldDeclaration" then
      (declPropsToMetaModel rest).map (fun l => fieldToMetaModel thing :: l)
    else if thing.type == "RelationshipDeclaration" then
      (declPropsToMetaModel rest).map (fun l => relationshipToMetaModel thing :: l)
    else if thing.type == "EnumPropertyDeclaration" then
      (declPropsToMetaModel rest).map (fun l => enumPropertyToMetaModel thing :: l)
    else
      .error (.typeErrorUndefined "modelFile")

/-- The `$class` dispatch of `declToMetaModel` (`metamodel.js` lines
135–153): the six recognised declaration kinds map to their discriminator;
an unrecognised kind throws an `IllegalModelException` whose message carries
the kind name but which receives no source location (the call passes only
the message and `this`). -/
def declTagFor (t : String) : Except ConvError String :=
  if t == "AssetDeclaration" then .ok "concerto.metamodel.AssetDeclaration"
  else if t == "TransactionDeclaration" then .ok "concerto.metamodel.TransactionDeclaration"
  else if t == "EventDeclaration" then .ok "concerto.metamodel.EventDeclaration"
  else if t == "ParticipantDeclaration" then .ok "concerto.metamodel.ParticipantDeclaration"
  else if t == "EnumDeclaration" then .ok "concerto.metamodel.EnumDeclaration"
  else if t == "ConceptDeclaration" then .ok "concerto.metamodel.ConceptDeclaration"
  else .error (.illegalModel (unrecElemMessage t) none)

/-- `declToMetaModel` (`metamodel.js` lines 132–202): resolve the
discriminator tag for the declaration kind, then copy name, abstract flag,
optional super type and identifying field, and convert the contained
properties in order; any thrown error aborts the conversion. -/
def declToMetaModel (ast : DeclAst) : Except ConvError MMDecl :=
  match declTagFor ast.type with
  | .error e => .error e
  | .ok tag =>
    match declPropsToMetaModel ast.body.declarations with
    | .error e => .error e
    | .ok fields =>
      .ok { classTag := tag,
            name := ast.id.name,
            isAbstract := ast.abstract,
            superType := ast.classExtension.map (fun ce =>
              { classTag := "concerto.metamodel.TypeIdentifier", name := ce.klass.name }),
            identifiedByField := ast.idField.map (fun i => i.name),
            fields := fields }

/-! ## Spec-side definitions

These definitions follow the specification's words (not the source) and are
used to compare the embedded code against the spec's description. -/

/-- Spec-side: the fully-qualified names of a declaration and of every
declaration reached by repeatedly following `getSuperTypeDeclaration()`. -/
def specChainNames : ClassDeclaration → List String
  | .root b => [b.fqn]
  | .child b s => b.fqn :: specChainNames s

/-- Spec-side: a property that is "a Field carrying a default value". -/
def carriesDefault : Property → Bool
  | .field f => f.defaultValue.isSome
  | _ => false

/-- Spec-side: the six primitive field type names. -/
def primitiveType (ty : String) : Bool :=
  ty == "Integer" || ty == "Long" || ty == "Double" || ty == "Boolean" ||
    ty == "DateTime" || ty == "String"

/-- A property for which the `_assignFieldDefaults` loop performs an
assignment: a Field whose default value is present and truthy. -/
def assignsDefault : Property → Bool
  | .field f =>
    match f.defaultValue with
    | some dv => !(dv == "")
    | none => false
  | _ => false

/-! ## Association-list lemmas -/

theorem lookupPropList_set_self (l : List (String × Value)) (n : String) (v : Value) :
    lookupPropList (setPropList l n v) n = some v := by
  induction l with
  | nil => simp [setPropList, lookupPropList]
  | cons hd tl ih =>
    obtain ⟨k, w⟩ := hd
    by_cases h : k = n
    · subst h
      simp [setPropList, lookupPropList]
    · have hb : (k == n) = false := beq_eq_false_iff_ne.mpr h
      simp [setPropList, lookupPropList, hb, ih]

theorem lookupPropList_set_other (l : List (String × Value)) (n m : String) (v : Value)
    (hnm : n ≠ m) :
    lookupPropList (setPropList l n v) m = lookupPropList l m := by
  induction l with
  | nil =>
    simp [setPropList, lookupPropList, beq_eq_false_iff_ne.mpr hnm]
  | cons hd tl ih =>
    obtain ⟨k, w⟩ := hd
    by_cases h : k = n
    · subst h
      simp [setPropList, lookupPropList, beq_eq_false_iff_ne.mpr hnm]
    · have hb : (k == n) = false := beq_eq_false_iff_ne.mpr h
      by_cases hm : k = m
      · subst hm
        simp [setPropList, lookupPropList, hb]
      · have hbm : (k == m) = false := beq_eq_false_iff_ne.mpr hm
        simp [setPropList, lookupPropList, hb, hbm, ih]

theorem lookupProp_set_self (t : Typed) (n : String) (v : Value) :
    (t._setPropertyValue n v).lookupProp n = some v :=
  lookupPropList_set_self t.props n v

theorem lookupProp_set_other (t : Typed) (n m : String) (v : Value) (hnm : n ≠ m) :
    (t._setPropertyValue n v).lookupProp m = t.lookupProp m :=
  lookupPropList_set_other t.props n m v hnm

/-! ## Default-assignment loop lemmas -/

theorem assignDefaultStep_of_not_assigning (t : Typed) (p : Property)
    (h : assignsDefault p = false) :
    assignDefaultStep t p = t := by
  cases p with
  | field f =>
    cases hd : f.defaultValue with
    | none => simp [assignDefaultStep, hd]
    | some dv =>
      have he : (dv == "") = true := by
        have := h
        simp only [assignsDefault, hd, Bool.not_eq_false'] at this
        exact this
      simp [assignDefaultStep, hd, he]
  | relationship n ty => rfl
  | enumValue n => rfl

theorem assignDefaultStep_lookup_other (t : Typed) (p : Property) (n : String)
    (h : p.getName ≠ n) :
    (assignDefaultStep t p).lookupProp n = t.lookupProp n := by
  cases p with
  | field f =>
    cases hd : f.defaultValue with
    | none => simp [assignDefaultStep, hd]
    | some dv =>
      by_cases he : (dv == "") = true
      · simp [assignDefaultStep, hd, he]
      · simp only [assignDefaultStep, hd, he, if_false, Bool.false_eq_true]
        exact lookupProp_set_other t f.name n _ (by simpa [Property.getName] using h)
  | relationship nm ty => rfl
  | enumValue nm => rfl

theorem foldl_assign_lookup_frame (props : List Property) (t : Typed) (n : String)
    (h : ∀ p ∈ props, p.getName = n → assignsDefault p = false) :
    (props.foldl assignDefaultStep t).lookupProp n = t.lookupProp n := by
  induction props generalizing t with
  | nil => rfl
  | cons p rest ih =>
    rw [List.foldl_cons]
    rw [ih (assignDefaultStep t p) (fun q hq => h q (List.mem_cons_of_mem _ hq))]
    by_cases hn : p.getName = n
    · rw [assignDefaultStep_of_not_assigning t p (h p (List.mem_cons_self p rest) hn)]
    · exact assignDefaultStep_lookup_other t p n hn

theorem foldl_assign_lookup_set (l1 l2 : List Property) (t : Typed) (f : FieldDecl)
    (dv : String) (hdv : f.defaultValue = some dv) (hne : dv ≠ "")
    (h2 : ∀ p ∈ l2, p.getName ≠ f.name) :
    ((l1 ++ Property.field f :: l2).foldl assignDefaultStep t).lookupProp f.name
      = some (coerceDefault f.type dv) := by
  rw [List.foldl_append, List.foldl_cons]
  rw [foldl_assign_lookup_frame l2 _ f.name (fun p hp hpn => absurd hpn (h2 p hp))]
  have hb : (dv == "") = false := beq_eq_false_iff_ne.mpr hne
  have hstep : assignDefaultStep (l1.foldl assignDefaultStep t) (Property.field f)
      = (l1.foldl assignDefaultStep t)._setPropertyValue f.name (coerceDefault f.type dv) := by
    simp [assignDefaultStep, hdv, hb]
  rw [hstep, lookupProp_set_self]

/-! ## Instance-of lemmas -/

theorem declInstanceOf_iff_mem_chain (d : ClassDeclaration) (fqt : String) :
    declInstanceOf d fqt = true ↔ fqt ∈ specChainNames d := by
  induction d with
  | root b =>
    simp only [declInstanceOf, instanceOfChain, ClassDeclaration.getFullyQualifiedName,
      Bool.or_false, beq_iff_eq, specChainNames, List.mem_singleton]
    exact eq_comm
  | child b s ih =>
    have hstep : declInstanceOf (ClassDeclaration.child b s) fqt
        = (b.fqn == fqt || declInstanceOf s fqt) := by
      simp [declInstanceOf, instanceOfChain, ClassDeclaration.getFullyQualifiedName,
        Bool.or_assoc]
    rw [hstep]
    simp only [Bool.or_eq_true, beq_iff_eq, ih, specChainNames, List.mem_cons]
    exact or_congr eq_comm Iff.rfl

theorem fqn_mem_specChainNames (d : ClassDeclaration) :
    d.getFullyQualifiedName ∈ specChainNames d := by
  cases d with
  | root b => simp [specChainNames, ClassDeclaration.getFullyQualifiedName]
  | child b s => simp [specChainNames, ClassDeclaration.getFullyQualifiedName]

/-! ## Claim theorems -/

/-- C1: For every Typed instance bound to a class declaration `d`,
`_instanceOf fqt` is true exactly when `fqt` is the declaration's own
fully-qualified name or the fully-qualified name of a declaration reached by
repeatedly following `getSuperTypeDeclaration()`; it is false when the chain
ends with no match; in particular the super-type's fully-qualified name
tests true and a name not on the chain tests false. -/
theorem claim1_instanceOf_chain (t : Typed) (d : ClassDeclaration)
    (h : t._getClassDeclaration = some (Value.vClassDecl d)) :
    (∀ fqt, t._instanceOf fqt = some true ↔ fqt ∈ specChainNames d) ∧
    (∀ fqt, fqt ∉ specChainNames d → t._instanceOf fqt = some false) ∧
    (∀ s, d.getSuperTypeDeclaration = some s →
      t._instanceOf s.getFullyQualifiedName = some true) := by
  have hinst : ∀ fqt, t._instanceOf fqt = some (declInstanceOf d fqt) := by
    intro fqt
    simp [Typed._instanceOf, h]
  refine ⟨?_, ?_, ?_⟩
  · intro fqt
    rw [hinst fqt, ← declInstanceOf_iff_mem_chain d fqt]
    exact ⟨fun he => Option.some_injective _ he, fun he => by rw [he]⟩
  · intro fqt hn
    rw [hinst fqt]
    have hne : declInstanceOf d fqt ≠ true := fun he =>
      hn ((declInstanceOf_iff_mem_chain d fqt).mp he)
    rw [Bool.eq_false_iff.mpr hne]
  · intro s hs
    cases d with
    | root b => simp [ClassDeclaration.getSuperTypeDeclaration] at hs
    | child b s0 =>
      have hss : s0 = s := by
        simpa [ClassDeclaration.getSuperTypeDeclaration] using hs
      subst hss
      rw [hinst]
      rw [(declInstanceOf_iff_mem_chain _ _).mpr
        (List.mem_cons_of_mem _ (fqn_mem_specChainNames s0))]

def c1Base : ClassDeclaration := .root { fqn := "org.acme.Base", props := [] }

def c1Mid : ClassDeclaration := .child { fqn := "org.acme.Mid", props := [] } c1Base

def c1Leaf : ClassDeclaration := .child { fqn := "org.acme.Leaf", props := [] } c1Mid

def c1T : Typed := Typed.make ModelManager.mk c1Leaf "org.acme" "Leaf"

theorem claim1_witness :
    c1T._instanceOf "org.acme.Base" = some true ∧
    c1T._instanceOf "org.acme.Mid" = some true ∧
    c1T._instanceOf "org.acme.Other" = some false :=
  ⟨((claim1_instanceOf_chain c1T c1Leaf rfl).1 "org.acme.Base").mpr (by decide),
   (claim1_instanceOf_chain c1T c1Leaf rfl).2.2 c1Mid rfl,
   (claim1_instanceOf_chain c1T c1Leaf rfl).2.1 "org.acme.Other" (by decide)⟩

/-- C6: `fieldToMetaModel` always copies the field's name and the boolean
`isArray`/`isOptional` flags; each of the six primitive type names gets its
dedicated discriminator tag (and no type reference), and every other type
name produces an `ObjectFieldDeclaration` carrying a `TypeIdentifier` with
that name. -/
theorem claim6_fieldToMetaModel (ast : PropAst) :
    (fieldToMetaModel ast).name = ast.id.name ∧
    (fieldToMetaModel ast).isArray = ast.array ∧
    (fieldToMetaModel ast).isOptional = ast.optional ∧
    (ast.propertyType.name = "Integer" →
      (fieldToMetaModel ast).classTag = "concerto.metamodel.IntegerFieldDeclaration" ∧
      (fieldToMetaModel ast).type = none) ∧
    (ast.propertyType.name = "Long" →
      (fieldToMetaModel ast).classTag = "concerto.metamodel.LongFieldDeclaration" ∧
      (fieldToMetaModel ast).type = none) ∧
    (ast.propertyType.name = "Double" →
      (fieldToMetaModel ast).classTag = "concerto.metamodel.DoubleFieldDeclaration" ∧
      (fieldToMetaModel ast).type = none) ∧
    (ast.propertyType.name = "Boolean" →
      (fieldToMetaModel ast).classTag = "concerto.metamodel.BooleanFieldDeclaration" ∧
      (fieldToMetaModel ast).type = none) ∧
    (ast.propertyType.name = "DateTime" →
      (fieldToMetaModel ast).classTag = "concerto.metamodel.DateTimeFieldDeclaration" ∧
      (fieldToMetaModel ast).type = none) ∧
    (ast.propertyType.name = "String" →
      (fieldToMetaModel ast).classTag = "concerto.metamodel.StringFieldDeclaration" ∧
      (fieldToMetaModel ast).type = none) ∧
    (primitiveType ast.propertyType.name = false →
      (fieldToMetaModel ast).classTag = "concerto.metamodel.ObjectFieldDeclaration" ∧
      (fieldToMetaModel ast).type
        = some { classTag := "concerto.metamodel.TypeIdentifier",
                 name := ast.propertyType.name }) := by
  refine ⟨?_, ?_, ?_, ?_, ?_, ?_, ?_, ?_, ?_, ?_⟩
  · unfold fieldToMetaModel
    repeat' split
    all_goals rfl
  · unfold fieldToMetaModel
    repeat' split
    all_goals rfl
  · unfold fieldToMetaModel
    repeat' split
    all_goals rfl
  · intro h; unfold fieldToMetaModel; rw [h]; exact ⟨rfl, rfl⟩
  · intro h; unfold fieldToMetaModel; rw [h]; exact ⟨rfl, rfl⟩
  · intro h; unfold fieldToMetaModel; rw [h]; exact ⟨rfl, rfl⟩
  · intro h; unfold fieldToMetaModel; rw [h]; exact ⟨rfl, rfl⟩
  · intro h; unfold fieldToMetaModel; rw [h]; exact ⟨rfl, rfl⟩
  · intro h; unfold fieldToMetaModel; rw [h]; exact ⟨rfl, rfl⟩
  · intro h
    simp only [primitiveType, Bool.or_eq_false_iff] at h
    obtain ⟨⟨⟨⟨⟨h1, h2⟩, h3⟩, h4⟩, h5⟩, h6⟩ := h
    unfold fieldToMetaModel
    rw [h1, h2, h3, h4, h5, h6]
    exact ⟨rfl, rfl⟩

def c6IntAst : PropAst :=
  { type := "FieldDeclaration", id := { name := "count" },
    propertyType := { name := "Integer" }, array := false, optional := true,
    location := { line := 1, column := 1 } }

def c6ObjAst : PropAst :=
  { type := "FieldDeclaration", id := { name := "home" },
    propertyType := { name := "Address" }, array := true, optional := false,
    location := { line := 2, column := 1 } }

theorem claim6_witness :
    ((fieldToMetaModel c6IntAst).classTag = "concerto.metamodel.IntegerFieldDeclaration" ∧
      (fieldToMetaModel c6IntAst).type = none) ∧
    ((fieldToMetaModel c6ObjAst).classTag = "concerto.metamodel.ObjectFieldDeclaration" ∧
      (fieldToMetaModel c6ObjAst).type
        = some { classTag := "concerto.metamodel.TypeIdentifier", name := "Address" }) :=
  ⟨(claim6_fieldToMetaModel c6IntAst).2.2.2.1 rfl,
   (claim6_fieldToMetaModel c6ObjAst).2.2.2.2.2.2.2.2.2 (by decide)⟩

/-- C7: Calling the generic convert-to-serialized-form entry point `_toJSON`
directly on any instance always fails with the error that redirects the
caller to the Serializer, regardless of the instance's type or properties. -/
theorem claim7_toJSON_blocked (t : Typed) :
    t._toJSON = Except.error
      "Use Serializer.toJSON to convert resource instances to JSON objects." :=
  rfl

/-- C9: `enumPropertyToMetaModel` produces only the `EnumFieldDeclaration`
discriminator, the member's name, `isArray = false` and `isOptional = false`,
and never a type reference — independently of any array or optional flags on
the AST node. -/
theorem claim9_enumProperty_shape (ast : PropAst) :
    enumPropertyToMetaModel ast =
      { classTag := "concerto.metamodel.EnumFieldDeclaration",
        name := ast.id.name, isArray := false, isOptional := false, type := none } :=
  rfl

/-- C10: `_setPropertyValue` stores into the same slot namespace as the
internal runtime metadata: writing the keys `$type`, `$namespace` or
`$classDeclaration` overwrites the bindings made by the constructor, so the
corresponding getter afterwards returns the caller-supplied value instead of
the original binding. -/
theorem claim10_setProperty_overwrites_metadata (mm : ModelManager)
    (cd : ClassDeclaration) (ns ty : String) (v : Value) :
    ((Typed.make mm cd ns ty)._setPropertyValue "$type" v)._getType = some v ∧
    ((Typed.make mm cd ns ty)._setPropertyValue "$namespace" v)._getNamespace = some v ∧
    ((Typed.make mm cd ns ty)._setPropertyValue "$classDeclaration" v)._getClassDeclaration
      = some v ∧
    (Typed.make mm cd ns ty)._getType = some (Value.vStr ty) ∧
    (Typed.make mm cd ns ty)._getNamespace = some (Value.vStr ns) ∧
    (Typed.make mm cd ns ty)._getClassDeclaration = some (Value.vClassDecl cd) :=
  ⟨lookupProp_set_self _ _ v, lookupProp_set_self _ _ v, lookupProp_set_self _ _ v,
   rfl, rfl, rfl⟩

/-- C8: `_addArrayValue` creates a one-element sequence holding the value
when the named property is absent or holds a falsy value, and appends the
value at the end of the existing sequence otherwise, leaving the prior
elements and their order unchanged. -/
theorem claim8_addArrayValue (t : Typed) (name : String) (v : Value) :
    (t.lookupProp name = none →
      t._addArrayValue name v
        = some (t._setPropertyValue name (Value.arr (ValueList.cons v ValueList.nil)))) ∧
    (∀ c, t.lookupProp name = some c → c.truthy = false →
      t._addArrayValue name v
        = some (t._setPropertyValue name (Value.arr (ValueList.cons v ValueList.nil)))) ∧
    (∀ l, t.lookupProp name = some (Value.arr l) →
      t._addArrayValue name v
        = some (t._setPropertyValue name
            (Value.arr (l.append (ValueList.cons v ValueList.nil))))) := by
  refine ⟨?_, ?_, ?_⟩
  · intro h
    simp [Typed._addArrayValue, h]
  · intro c hc ht
    simp [Typed._addArrayValue, hc, ht]
  · intro l hl
    simp [Typed._addArrayValue, hl, Value.truthy]

def c8T : Typed :=
  Typed.make ModelManager.mk (.root { fqn := "org.acme.Order", props := [] })
    "org.acme" "Order"

def c8T1 : Typed :=
  c8T._setPropertyValue "wheels" (Value.arr (ValueList.cons (Value.vStr "w1") ValueList.nil))

theorem claim8_witness :
    (c8T.lookupProp "wheels" = none ∧
      c8T._addArrayValue "wheels" (Value.vStr "w1")
        = some (c8T._setPropertyValue "wheels"
            (Value.arr (ValueList.cons (Value.vStr "w1") ValueList.nil)))) ∧
    (c8T1.lookupProp "wheels"
        = some (Value.arr (ValueList.cons (Value.vStr "w1") ValueList.nil)) ∧
      c8T1._addArrayValue "wheels" (Value.vStr "w2")
        = some (c8T1._setPropertyValue "wheels"
            (Value.arr ((ValueList.cons (Value.vStr "w1") ValueList.nil).append
              (ValueList.cons (Value.vStr "w2") ValueList.nil))))) :=
  ⟨⟨rfl, (claim8_addArrayValue c8T "wheels" (Value.vStr "w1")).1 rfl⟩,
   ⟨rfl, (claim8_addArrayValue c8T1 "wheels" (Value.vStr "w2")).2.2
      (ValueList.cons (Value.vStr "w1") ValueList.nil) rfl⟩⟩

/-- C2 (amended): after `_assignFieldDefaults`, every declared Field carrying
a *truthy* (non-empty) default value holds the default coerced by its
primitive kind — Integer/Long parse as integers, Double parses as floating
point, Boolean is true exactly for the text `"true"`, DateTime parses
preserving the declared time-zone offset, String and enum defaults are
copied verbatim.  (The source guard `if (defaultValue)` skips an
empty-string default, so the original claim fails for a Field whose declared
default is `""`; see the counterexample.) -/
theorem claim2_assignFieldDefaults (t : Typed) (cd : ClassDeclaration) (f : FieldDecl)
    (dv : String)
    (hcd : t._getClassDeclaration = some (Value.vClassDecl cd))
    (hnd : (cd.getProperties.map Property.getName).Nodup)
    (hmem : Property.field f ∈ cd.getProperties)
    (hdv : f.defaultValue = some dv) (hne : dv ≠ "") :
    ((f.type = "Integer" ∨ f.type = "Long") →
      (t._assignFieldDefaults).bind (fun u => u.lookupProp f.name)
        = some (jsParseInt dv)) ∧
    (f.type = "Double" →
      (t._assignFieldDefaults).bind (fun u => u.lookupProp f.name)
        = some (jsParseFloat dv)) ∧
    (f.type = "Boolean" →
      (t._assignFieldDefaults).bind (fun u => u.lookupProp f.name)
        = some (Value.vBool (dv == "true"))) ∧
    (f.type = "DateTime" →
      (t._assignFieldDefaults).bind (fun u => u.lookupProp f.name)
        = some (Value.vDateTime (Moment.parseZone dv))) ∧
    ((f.type = "String" ∨ primitiveType f.type = false) →
      (t._assignFieldDefaults).bind (fun u => u.lookupProp f.name)
        = some (Value.vStr dv)) := by
  obtain ⟨l1, l2, hsplit⟩ := List.append_of_mem hmem
  have hnotmem : f.name ∉ l2.map Property.getName := by
    rw [hsplit, List.map_append, List.map_cons] at hnd
    exact (List.nodup_cons.mp (List.Nodup.of_append_right hnd)).1
  have h2 : ∀ p ∈ l2, p.getName ≠ f.name := by
    intro p hp he
    exact hnotmem (he ▸ List.mem_map_of_mem _ hp)
  have hfold : t._assignFieldDefaults
      = some (cd.getProperties.foldl assignDefaultStep t) := by
    simp [Typed._assignFieldDefaults, hcd]
  have hmain : (t._assignFieldDefaults).bind (fun u => u.lookupProp f.name)
      = some (coerceDefault f.type dv) := by
    rw [hfold]
    show (cd.getProperties.foldl assignDefaultStep t).lookupProp f.name
      = some (coerceDefault f.type dv)
    rw [hsplit]
    exact foldl_assign_lookup_set l1 l2 t f dv hdv hne h2
  refine ⟨?_, ?_, ?_, ?_, ?_⟩
  · rintro (h | h) <;> (rw [hmain, h]; rfl)
  · intro h
    rw [hmain, h]
    rfl
  · intro h
    rw [hmain, h]
    rfl
  · intro h
    rw [hmain, h]
    rfl
  · rintro (h | h)
    · rw [hmain, h]
      rfl
    · rw [hmain]
      simp only [primitiveType, Bool.or_eq_false_iff] at h
      obtain ⟨⟨⟨⟨⟨h1, h2'⟩, h3⟩, h4⟩, h5⟩, h6⟩ := h
      unfold coerceDefault
      rw [h6, h1, h2', h3, h4, h5]
      rfl

def c2Cd : ClassDeclaration :=
  .root { fqn := "org.acme.Item",
          props := [Property.field
            { name := "count", type := "Integer", defaultValue := some "5" }] }

def c2T : Typed := Typed.make ModelManager.mk c2Cd "org.acme" "Item"

theorem claim2_witness :
    (c2T._assignFieldDefaults).bind (fun u => u.lookupProp "count")
      = some (jsParseInt "5") ∧
    jsParseInt "5" = Value.num 5 ∧
    (Moment.parseZone "2021-03-04T05:06:07+05:30").utcOffset = 330 :=
  ⟨(claim2_assignFieldDefaults c2T c2Cd
      { name := "count", type := "Integer", defaultValue := some "5" } "5"
      rfl (by decide) (by decide) rfl (by decide)).1 (Or.inl rfl),
   by decide, by decide⟩

def c2CexCd : ClassDeclaration :=
  .root { fqn := "org.acme.Msg",
          props := [Property.field
            { name := "note", type := "String", defaultValue := some "" }] }

def c2CexT : Typed := Typed.make ModelManager.mk c2CexCd "org.acme" "Msg"

/-- C2 counterexample: a String field whose declared default value is the
empty string is a "Field carrying a default value", yet after
`_assignFieldDefaults` its property is unset (not the verbatim copy `""`) —
the `if (defaultValue)` guard treats the empty string as falsy and skips the
assignment. -/
theorem claim2_counterexample :
    (Property.field { name := "note", type := "String", defaultValue := some "" })
        ∈ c2CexCd.getProperties ∧
    carriesDefault
      (Property.field { name := "note", type := "String", defaultValue := some "" })
        = true ∧
    (c2CexT._assignFieldDefaults).bind (fun u => u.lookupProp "note") = none :=
  ⟨by decide, rfl, rfl⟩

/-- C3: after `_assignFieldDefaults`, every declared property that is not a
Field carrying a default value (Fields without a declared default,
Relationships, enum members) keeps its previous binding — in particular it
remains unset on a freshly constructed instance, so absence is
distinguishable from a defaulted or explicitly-set value. -/
theorem claim3_nonDefaulted_unset (t : Typed) (cd : ClassDeclaration) (p : Property)
    (hcd : t._getClassDeclaration = some (Value.vClassDecl cd))
    (hnd : (cd.getProperties.map Property.getName).Nodup)
    (hmem : p ∈ cd.getProperties)
    (hnodef : carriesDefault p = false) :
    (t._assignFieldDefaults).bind (fun u => u.lookupProp p.getName)
        = t.lookupProp p.getName ∧
    (t.lookupProp p.getName = none →
      (t._assignFieldDefaults).bind (fun u => u.lookupProp p.getName) = none) := by
  have hassign : assignsDefault p = false := by
    cases p with
    | field f =>
      cases hd : f.defaultValue with
      | none => simp [assignsDefault, hd]
      | some dv => simp [carriesDefault, hd] at hnodef
    | relationship n ty => rfl
    | enumValue n => rfl
  have hframe : ∀ q ∈ cd.getProperties, q.getName = p.getName → assignsDefault q = false := by
    intro q hq hname
    have hqp : q = p := List.inj_on_of_nodup_map hnd hq hmem hname
    rw [hqp]
    exact hassign
  have hA : (t._assignFieldDefaults).bind (fun u => u.lookupProp p.getName)
      = t.lookupProp p.getName := by
    simp only [Typed._assignFieldDefaults, hcd, Option.some_bind]
    exact foldl_assign_lookup_frame _ t _ hframe
  exact ⟨hA, fun h0 => hA.trans h0⟩

def c3Cd : ClassDeclaration :=
  .root { fqn := "org.acme.Car",
          props := [Property.field { name := "vin", type := "String", defaultValue := none },
                    Property.relationship "owner" "org.acme.Person",
                    Property.field { name := "made", type := "Integer", defaultValue := some "7" }] }

def c3T : Typed := Typed.make ModelManager.mk c3Cd "org.acme" "Car"

theorem claim3_witness :
    c3T.lookupProp "vin" = none ∧
    (c3T._assignFieldDefaults).bind (fun u => u.lookupProp "vin") = none ∧
    (c3T._assignFieldDefaults).bind (fun u => u.lookupProp "owner") = none :=
  ⟨rfl,
   (claim3_nonDefaulted_unset c3T c3Cd
      (Property.field { name := "vin", type := "String", defaultValue := none })
      rfl (by decide) (by decide) rfl).2 rfl,
   (claim3_nonDefaulted_unset c3T c3Cd
      (Property.relationship "owner" "org.acme.Person")
      rfl (by decide) (by decide) rfl).2 rfl⟩

/-! ## Converter lemmas -/

theorem declPropsToMetaModel_dollar_head (p : PropAst) (rest : List PropAst)
    (h : startsWithDollar p.id.name = true) :
    declPropsToMetaModel (p :: rest) = .error (.typeErrorUndefined "modelFile") := by
  unfold declPropsToMetaModel
  rw [if_pos h]

theorem declPropsToMetaModel_error_of_dollar (l : List PropAst)
    (h : ∃ q ∈ l, startsWithDollar q.id.name = true) :
    ∃ e, declPropsToMetaModel l = .error e := by
  induction l with
  | nil =>
    obtain ⟨q, hq, _⟩ := h
    exact absurd hq (List.not_mem_nil q)
  | cons thing rest ih =>
    by_cases hs : startsWithDollar thing.id.name = true
    · exact ⟨_, declPropsToMetaModel_dollar_head thing rest hs⟩
    · obtain ⟨q, hq, hd⟩ := h
      have hq2 : q ∈ rest := by
        rcases List.mem_cons.mp hq with h1 | h1
        · exact absurd (h1 ▸ hd) hs
        · exact h1
      obtain ⟨e, he⟩ := ih ⟨q, hq2, hd⟩
      unfold declPropsToMetaModel
      rw [if_neg hs]
      repeat' split
      all_goals try exact ⟨ConvError.typeErrorUndefined "modelFile", rfl⟩
      all_goals refine ⟨e, ?_⟩
      all_goals rw [he]
      all_goals rfl

theorem declToMetaModel_error_of_dollar (ast : DeclAst)
    (h : ∃ q ∈ ast.body.declarations, startsWithDollar q.id.name = true) :
    ∃ e, declToMetaModel ast = .error e := by
  obtain ⟨e, he⟩ := declPropsToMetaModel_error_of_dollar ast.body.declarations h
  cases htag : declTagFor ast.type with
  | error e2 =>
    refine ⟨e2, ?_⟩
    unfold declToMetaModel
    rw [htag]
  | ok tag =>
    refine ⟨e, ?_⟩
    unfold declToMetaModel
    rw [htag, he]

theorem declToMetaModel_ok_tag (ast : DeclAst) (d : MMDecl)
    (h : declToMetaModel ast = .ok d) :
    declTagFor ast.type = .ok d.classTag := by
  unfold declToMetaModel at h
  cases htag : declTagFor ast.type with
  | error e =>
    rw [htag] at h
    simp at h
  | ok tag =>
    rw [htag] at h
    cases hf : declPropsToMetaModel ast.body.declarations with
    | error e =>
      rw [hf] at h
      simp at h
    | ok fields =>
      rw [hf] at h
      injection h with h2
      rw [← h2]

/-- C4: a contained property node whose name begins with the reserved sigil
`$` makes the conversion of the enclosing declaration fail with an error;
the failure happens in the per-property loop before the property's kind is
even inspected, so it is identical for all property kinds (the thrown value
is in fact the TypeError from reading `this.modelFile` with
`this = undefined`). -/
theorem claim4_dollar_name_rejected (ast : DeclAst) (p : PropAst) :
    ((∃ q ∈ ast.body.declarations, startsWithDollar q.id.name = true) →
      ∃ e, declToMetaModel ast = .error e) ∧
    (∀ rest, startsWithDollar p.id.name = true →
      declPropsToMetaModel (p :: rest) = .error (.typeErrorUndefined "modelFile")) :=
  ⟨declToMetaModel_error_of_dollar ast,
   fun rest h => declPropsToMetaModel_dollar_head p rest h⟩

def c4DollarNode : PropAst :=
  { type := "EnumPropertyDeclaration", id := { name := "$bad" },
    propertyType := { name := "String" }, array := false, optional := false,
    location := { line := 4, column := 1 } }

def c4Ast : DeclAst :=
  { type := "ConceptDeclaration", id := { name := "Thing" }, abstract := false,
    classExtension := none, idField := none,
    body := { declarations :=
      [{ type := "FieldDeclaration", id := { name := "good" },
         propertyType := { name := "String" }, array := false, optional := false,
         location := { line := 3, column := 1 } },
       c4DollarNode] },
    location := { line := 1, column := 1 } }

def c4RelNode : PropAst :=
  { type := "RelationshipDeclaration", id := { name := "$ref" },
    propertyType := { name := "Target" }, array := false, optional := false,
    location := { line := 9, column := 1 } }

theorem claim4_witness :
    (∃ e, declToMetaModel c4Ast = Except.error e) ∧
    declPropsToMetaModel [c4RelNode] = .error (.typeErrorUndefined "modelFile") :=
  ⟨(claim4_dollar_name_rejected c4Ast c4RelNode).1 ⟨c4DollarNode, by decide, by decide⟩,
   (claim4_dollar_name_rejected c4Ast c4RelNode).2 [] (by decide)⟩

/-- C5 (amended): for a declaration node whose syntactic kind is none of the
six recognised kinds, `declToMetaModel` fails with a fatal error that
carries the offending kind name but *no* source location (the `throw` passes
only the message and `this`, so no location reaches the exception); for the
six recognised kinds the produced declaration carries exactly the one
matching discriminator tag. -/
theorem claim5_decl_dispatch (ast : DeclAst) :
    (¬(ast.type = "AssetDeclaration" ∨ ast.type = "TransactionDeclaration" ∨
       ast.type = "EventDeclaration" ∨ ast.type = "ParticipantDeclaration" ∨
       ast.type = "EnumDeclaration" ∨ ast.type = "ConceptDeclaration") →
      declToMetaModel ast = .error (.illegalModel (unrecElemMessage ast.type) none)) ∧
    (∀ d, declToMetaModel ast = .ok d →
      (ast.type = "AssetDeclaration" →
        d.classTag = "concerto.metamodel.AssetDeclaration") ∧
      (ast.type = "TransactionDeclaration" →
        d.classTag = "concerto.metamodel.TransactionDeclaration") ∧
      (ast.type = "EventDeclaration" →
        d.classTag = "concerto.metamodel.EventDeclaration") ∧
      (ast.type = "ParticipantDeclaration" →
        d.classTag = "concerto.metamodel.ParticipantDeclaration") ∧
      (ast.type = "EnumDeclaration" →
        d.classTag = "concerto.metamodel.EnumDeclaration") ∧
      (ast.type = "ConceptDeclaration" →
        d.classTag = "concerto.metamodel.ConceptDeclaration")) := by
  constructor
  · intro h
    push_neg at h
    obtain ⟨h1, h2, h3, h4, h5, h6⟩ := h
    have htag : declTagFor ast.type
        = .error (.illegalModel (unrecElemMessage ast.type) none) := by
      unfold declTagFor
      rw [if_neg (by simp [h1]), if_neg (by simp [h2]), if_neg (by simp [h3]),
          if_neg (by simp [h4]), if_neg (by simp [h5]), if_neg (by simp [h6])]
    unfold declToMetaModel
    rw [htag]
  · intro d hok
    have htag := declToMetaModel_ok_tag ast d hok
    refine ⟨?_, ?_, ?_, ?_, ?_, ?_⟩ <;> intro he <;> rw [he] at htag
    · exact (Except.ok.inj
        (htag : (Except.ok "concerto.metamodel.AssetDeclaration"
          : Except ConvError String) = .ok d.classTag)).symm
    · exact (Except.ok.inj
        (htag : (Except.ok "concerto.metamodel.TransactionDeclaration"
          : Except ConvError String) = .ok d.classTag)).symm
    · exact (Except.ok.inj
        (htag : (Except.ok "concerto.metamodel.EventDeclaration"
          : Except ConvError String) = .ok d.classTag)).symm
    · exact (Except.ok.inj
        (htag : (Except.ok "concerto.metamodel.ParticipantDeclaration"
          : Except ConvError String) = .ok d.classTag)).symm
    · exact (Except.ok.inj
        (htag : (Except.ok "concerto.metamodel.EnumDeclaration"
          : Except ConvError String) = .ok d.classTag)).symm
    · exact (Except.ok.inj
        (htag : (Except.ok "concerto.metamodel.ConceptDeclaration"
          : Except ConvError String) = .ok d.classTag)).symm

def c5BadAst : DeclAst :=
  { type := "MapDeclaration", id := { name := "M" }, abstract := false,
    classExtension := none, idField := none, body := { declarations := [] },
    location := { line := 7, column := 2 } }

def c5GoodAst : DeclAst :=
  { type := "AssetDeclaration", id := { name := "Car" }, abstract := false,
    classExtension := none, idField := none, body := { declarations := [] },
    location := { line := 1, column := 1 } }

def c5GoodDecl : MMDecl :=
  { classTag := "concerto.metamodel.AssetDeclaration", name := "Car",
    isAbstract := false, superType := none, identifiedByField := none, fields := [] }

theorem claim5_witness :
    declToMetaModel c5BadAst
      = .error (.illegalModel (unrecElemMessage "MapDeclaration") none) ∧
    c5GoodDecl.classTag = "concerto.metamodel.AssetDeclaration" :=
  ⟨(claim5_decl_dispatch c5BadAst).1 (by decide),
   ((claim5_decl_dispatch c5GoodAst).2 c5GoodDecl rfl).1 rfl⟩

def c5CexAst : DeclAst :=
  { type := "ScalarDeclaration", id := { name := "SSN" }, abstract := false,
    classExtension := none, idField := none, body := { declarations := [] },
    location := { line := 5, column := 3 } }

/-- C5 counterexample: an unrecognised declaration kind at a node that does
carry a source location yields an error whose location component is `none` —
the error carries the offending kind name but not the source location,
contrary to the claim. -/
theorem claim5_counterexample :
    c5CexAst.location = { line := 5, column := 3 } ∧
    declToMetaModel c5CexAst
      = .error (.illegalModel (unrecElemMessage "ScalarDeclaration") none) :=
  ⟨rfl, rfl⟩

end Concerto
